import Mathlib

/-!
Verification of the registry / hot-backup / access-broker layer of
`paulstuart/sqlite-util` (`src/lite.go`), against its specification.

The Go source is shallowly embedded: pure helpers (`toIPv4`, `fromIPv4`)
become Lean functions on `Int` (Go `int64` arithmetic is wrap-around, modelled
with `Int.bmod _ (2 ^ 64)`); the stateful operations (`register`, `sqlInit`,
the connect hook, `open`, `backup`) become explicit state-passing functions
over a world record, with the outcomes of external effects (filesystem calls,
the SQLite engine) supplied by oracle records; the `Server` broker becomes a
small-step transition system over readers-writer lock states.
-/

/-! ## The IP conversion functions (src/lite.go, `toIPv4` / `fromIPv4`) -/

/-- test for a decimal digit character, `'0'` through `'9'` (codes 48..57). -/
def isDecDigit (c : Char) : Bool := 48 ≤ c.toNat && c.toNat ≤ 57

/-- Go `strings.Split(s, ".")` on a list of characters: splits at every
`'.'`; splitting the empty string yields a single empty field. -/
def splitDot : List Char → List (List Char)
  | [] => [[]]
  | c :: cs =>
    if c = '.' then [] :: splitDot cs
    else
      match splitDot cs with
      | f :: rest => (c :: f) :: rest
      | [] => [[c]]

/-- the character rendering decimal digit `d`. -/
def decDigitChar (d : Nat) : Char := Char.ofNat (48 + d)

/-- decimal rendering of a natural number, as Go `fmt.Sprintf("%d", n)`
produces it: most significant digit first, `"0"` for zero. -/
def natDecimal (n : Nat) : List Char :=
  if n = 0 then ['0'] else ((Nat.digits 10 n).map decDigitChar).reverse

/-- decimal rendering of an `int64`, as Go `fmt.Sprintf("%d", x)` produces
it: a leading `'-'` for negative values. -/
def intDecimal (x : Int) : List Char :=
  if x < 0 then '-' :: natDecimal x.natAbs else natDecimal x.natAbs

/-- `toIPv4` (src/lite.go): renders an int64 as a dotted quad; each octet is
`(ip >> k) & 0xFF` in Go int64 arithmetic, and the four octets are joined
with `'.'` by `fmt.Sprintf("%d.%d.%d.%d", a, b, c, d)`. -/
def toIPv4 (ip : Int) : List Char :=
  let a := Int.land (ip >>> 24) 0xFF
  let b := Int.land (ip >>> 16) 0xFF
  let c := Int.land (ip >>> 8) 0xFF
  let d := Int.land ip 0xFF
  intDecimal a ++ '.' :: intDecimal b ++ '.' :: intDecimal c ++ '.' :: intDecimal d

/-- value of a decimal digit string, most significant digit first. -/
def decValue (ds : List Char) : Nat :=
  ds.foldl (fun acc c => 10 * acc + (c.toNat - 48)) 0

/-- Go `strconv.ParseInt(s, 10, 64)` with the returned error discarded, as
the octet parses in `fromIPv4` do (`a, _ := strconv.ParseInt(...)`): an
optional sign followed by decimal digits; the value is `0` on a syntax
error and clamped to the int64 range on overflow. -/
def goParseInt64 (s : List Char) : Int :=
  match s with
  | [] => 0
  | c0 :: rest =>
    let neg := c0 == '-'
    let ds := if c0 == '+' || c0 == '-' then rest else c0 :: rest
    if ds.isEmpty then 0
    else if ds.all isDecDigit then
      let v := decValue ds
      if neg then
        if 2 ^ 63 < v then -(2 ^ 63 : Int) else -(v : Int)
      else
        if 2 ^ 63 ≤ v then (2 ^ 63 : Int) - 1 else (v : Int)
    else 0

/-- two's-complement truncation of Go int64 arithmetic: `Int.bmod x (2 ^ 64)`
is the representative of `x` modulo `2 ^ 64` lying in `[-2 ^ 63, 2 ^ 63)`. -/
def w64 (x : Int) : Int := Int.bmod x (2 ^ 64)

/-- Go `x << k` on int64: left shift, truncated to 64 bits. -/
def shl64 (x : Int) (k : Nat) : Int := w64 (x * 2 ^ k)

/-- Go `x + y` on int64: wrap-around addition. -/
def add64 (x y : Int) : Int := w64 (x + y)

/-- `fromIPv4` (src/lite.go): splits the string on `'.'`, returns `-1`
unless there are exactly four fields, otherwise parses each octet (parse
errors ignored) and recombines `(a << 24) + (b << 16) + (c << 8) + d` in
Go int64 arithmetic. -/
def fromIPv4 (s : List Char) : Int :=
  match splitDot s with
  | [o1, o2, o3, o4] =>
    let a := goParseInt64 o1
    let b := goParseInt64 o2
    let c := goParseInt64 o3
    let d := goParseInt64 o4
    add64 (add64 (add64 (shl64 a 24) (shl64 b 16)) (shl64 c 8)) d
  | _ => -1

/-! ### Facts about `splitDot` -/

theorem splitDot_ne_nil (s : List Char) : splitDot s ≠ [] := by
  induction s with
  | nil => simp [splitDot]
  | cons c cs ih =>
    simp only [splitDot]
    split
    · simp
    · cases h : splitDot cs with
      | nil => exact absurd h ih
      | cons f rest => simp

theorem splitDot_length (s : List Char) :
    (splitDot s).length = s.count '.' + 1 := by
  induction s with
  | nil => simp [splitDot]
  | cons c cs ih =>
    simp only [splitDot]
    by_cases hc : c = '.'
    · subst hc
      simp [List.count_cons, ih]
    · rw [if_neg hc]
      cases h : splitDot cs with
      | nil => exact absurd h (splitDot_ne_nil cs)
      | cons f rest =>
        have := ih
        rw [h] at this
        simp only [List.length_cons] at this ⊢
        simp [List.count_cons, hc, ← this]

theorem splitDot_no_dot (x : List Char) (hx : ¬ '.' ∈ x) : splitDot x = [x] := by
  induction x with
  | nil => simp [splitDot]
  | cons c cs ih =>
    simp only [List.mem_cons, not_or] at hx
    simp only [splitDot]
    rw [if_neg (fun h => hx.1 h.symm), ih hx.2]

theorem splitDot_append_dot (x rest : List Char) (hx : ¬ '.' ∈ x) :
    splitDot (x ++ '.' :: rest) = x :: splitDot rest := by
  induction x with
  | nil => simp [splitDot]
  | cons c cs ih =>
    simp only [List.mem_cons, not_or] at hx
    simp only [List.cons_append, splitDot]
    rw [if_neg (fun h => hx.1 h.symm)]
    simp only [List.append_eq]
    rw [ih hx.2]

/-! ### Facts about decimal rendering and parsing -/

theorem decDigitChar_toNat (d : Nat) (hd : d < 10) :
    (decDigitChar d).toNat = 48 + d := by
  interval_cases d <;> decide

theorem decDigitChar_isDecDigit (d : Nat) (hd : d < 10) :
    isDecDigit (decDigitChar d) = true := by
  interval_cases d <;> decide

theorem decDigitChar_ne_dot (d : Nat) (hd : d < 10) :
    decDigitChar d ≠ '.' := by
  interval_cases d <;> decide

theorem natDecimal_ne_nil (n : Nat) : natDecimal n ≠ [] := by
  unfold natDecimal
  split
  · simp
  · intro h
    rw [List.reverse_eq_nil_iff, List.map_eq_nil_iff] at h
    exact (Nat.digits_ne_nil_iff_ne_zero.mpr (by assumption)) h

theorem natDecimal_mem (n : Nat) (c : Char) (hc : c ∈ natDecimal n) :
    ∃ d, d < 10 ∧ c = decDigitChar d := by
  unfold natDecimal at hc
  split at hc
  · refine ⟨0, by norm_num, ?_⟩
    simp at hc
    simp [hc]
    decide
  · rw [List.mem_reverse, List.mem_map] at hc
    obtain ⟨d, hd, rfl⟩ := hc
    exact ⟨d, Nat.digits_lt_base (by norm_num) hd, rfl⟩

theorem natDecimal_no_dot (n : Nat) : ¬ '.' ∈ natDecimal n := by
  intro h
  obtain ⟨d, hd, hc⟩ := natDecimal_mem n '.' h
  exact decDigitChar_ne_dot d hd hc.symm

theorem natDecimal_all_digits (n : Nat) :
    (natDecimal n).all isDecDigit = true := by
  rw [List.all_eq_true]
  intro c hc
  obtain ⟨d, hd, rfl⟩ := natDecimal_mem n c hc
  exact decDigitChar_isDecDigit d hd

theorem decValue_append_digit (xs : List Char) (c : Char) :
    decValue (xs ++ [c]) = 10 * decValue xs + (c.toNat - 48) := by
  unfold decValue
  rw [List.foldl_append]
  rfl

theorem decValue_rev_digits (L : List Nat) (hL : ∀ d ∈ L, d < 10) :
    decValue ((L.map decDigitChar).reverse) = Nat.ofDigits 10 L := by
  induction L with
  | nil => simp [decValue, Nat.ofDigits]
  | cons d L ih =>
    have hd : d < 10 := hL d (by simp)
    have hrest : ∀ x ∈ L, x < 10 := fun x hx => hL x (by simp [hx])
    simp only [List.map_cons, List.reverse_cons]
    rw [decValue_append_digit, ih hrest, Nat.ofDigits_cons,
      decDigitChar_toNat d hd]
    omega

theorem decValue_natDecimal (n : Nat) : decValue (natDecimal n) = n := by
  unfold natDecimal
  split
  · subst n
    decide
  · rw [decValue_rev_digits _ (fun d hd => Nat.digits_lt_base (by norm_num) hd),
      Nat.ofDigits_digits]

theorem goParseInt64_digits (ds : List Char) (h1 : ds ≠ [])
    (h2 : ds.all isDecDigit = true) (h3 : decValue ds < 2 ^ 63) :
    goParseInt64 ds = (decValue ds : Int) := by
  cases ds with
  | nil => exact absurd rfl h1
  | cons c t =>
    have hc : isDecDigit c = true := by
      rw [List.all_eq_true] at h2
      exact h2 c (by simp)
    have hc48 : 48 ≤ c.toNat := by
      unfold isDecDigit at hc
      simp only [Bool.and_eq_true, decide_eq_true_eq] at hc
      exact hc.1
    have hplus : (c == '+') = false := by
      rw [beq_eq_false_iff_ne]
      intro h
      subst h
      exact absurd hc48 (by decide)
    have hminus : (c == '-') = false := by
      rw [beq_eq_false_iff_ne]
      intro h
      subst h
      exact absurd hc48 (by decide)
    simp only [goParseInt64, hplus, hminus, Bool.or_self, Bool.false_eq_true,
      if_false, List.isEmpty_cons, h2, if_true]
    rw [if_neg (by omega)]

theorem w64_eq_self (x : Int) (h0 : 0 ≤ x) (h1 : x < 2 ^ 63) : w64 x = x := by
  unfold w64
  rw [Int.bmod_def]
  rw [Int.emod_eq_of_lt h0 (by norm_num; omega)]
  rw [if_pos (by norm_num; omega)]

theorem intDecimal_ofNat (j : Nat) : intDecimal (j : Int) = natDecimal j := by
  unfold intDecimal
  rw [if_neg (by exact Int.not_lt.mpr (Int.natCast_nonneg j))]
  simp

theorem nat_and_255 (x : Nat) : x &&& 255 = x % 256 := by
  have h := Nat.and_pow_two_sub_one_eq_mod x 8
  norm_num at h
  exact h

theorem toIPv4_ofNat (m : Nat) :
    toIPv4 (m : Int) =
      natDecimal (m / 2 ^ 24 % 256) ++ '.' :: natDecimal (m / 2 ^ 16 % 256) ++
        '.' :: natDecimal (m / 2 ^ 8 % 256) ++ '.' :: natDecimal (m % 256) := by
  have hsh24 : (m : Int) >>> 24 = ((m >>> 24 : Nat) : Int) := rfl
  have hsh16 : (m : Int) >>> 16 = ((m >>> 16 : Nat) : Int) := rfl
  have hsh8 : (m : Int) >>> 8 = ((m >>> 8 : Nat) : Int) := rfl
  have hland : ∀ a : Nat, Int.land (a : Int) 0xFF = ((a &&& 255 : Nat) : Int) :=
    fun a => rfl
  unfold toIPv4
  dsimp only
  rw [hsh24, hsh16, hsh8, hland, hland, hland, hland,
    intDecimal_ofNat, intDecimal_ofNat, intDecimal_ofNat, intDecimal_ofNat,
    nat_and_255, nat_and_255, nat_and_255, nat_and_255,
    Nat.shiftRight_eq_div_pow, Nat.shiftRight_eq_div_pow, Nat.shiftRight_eq_div_pow]

theorem splitDot_quad (x1 x2 x3 x4 : List Char)
    (h1 : ¬ '.' ∈ x1) (h2 : ¬ '.' ∈ x2) (h3 : ¬ '.' ∈ x3) (h4 : ¬ '.' ∈ x4) :
    splitDot (x1 ++ '.' :: (x2 ++ '.' :: (x3 ++ '.' :: x4))) = [x1, x2, x3, x4] := by
  rw [splitDot_append_dot _ _ h1, splitDot_append_dot _ _ h2,
    splitDot_append_dot _ _ h3, splitDot_no_dot _ h4]

theorem goParseInt64_natDecimal (j : Nat) (hj : j < 2 ^ 63) :
    goParseInt64 (natDecimal j) = (j : Int) := by
  rw [goParseInt64_digits (natDecimal j) (natDecimal_ne_nil j)
    (natDecimal_all_digits j) (by rw [decValue_natDecimal]; exact hj),
    decValue_natDecimal]

/-- C10: the custom SQL functions `atoip` (`fromIPv4`) and `iptoa` (`toIPv4`)
registered by `ipFuncs` are mutually inverse on the 32-bit range, and
`fromIPv4` yields `-1` on any string that does not consist of exactly four
dot-separated fields (dot count different from three). -/
theorem fromIPv4_toIPv4_inverse :
    (∀ n : Int, 0 ≤ n → n < 2 ^ 32 → fromIPv4 (toIPv4 n) = n) ∧
    (∀ s : List Char, s.count '.' ≠ 3 → fromIPv4 s = -1) := by
  constructor
  · intro n h0 h32
    obtain ⟨m, rfl⟩ := Int.eq_ofNat_of_zero_le h0
    have hm : m < 2 ^ 32 := by exact_mod_cast h32
    rw [toIPv4_ofNat]
    set a := m / 2 ^ 24 % 256 with ha
    set b := m / 2 ^ 16 % 256 with hb
    set c := m / 2 ^ 8 % 256 with hc
    set d := m % 256 with hd
    have hau : a < 256 := Nat.mod_lt _ (by norm_num)
    have hbu : b < 256 := Nat.mod_lt _ (by norm_num)
    have hcu : c < 256 := Nat.mod_lt _ (by norm_num)
    have hdu : d < 256 := Nat.mod_lt _ (by norm_num)
    unfold fromIPv4
    rw [show natDecimal a ++ '.' :: natDecimal b ++ '.' :: natDecimal c ++
        '.' :: natDecimal d =
        natDecimal a ++ '.' :: (natDecimal b ++ '.' :: (natDecimal c ++
        '.' :: natDecimal d)) by simp]
    rw [splitDot_quad _ _ _ _ (natDecimal_no_dot a) (natDecimal_no_dot b)
      (natDecimal_no_dot c) (natDecimal_no_dot d)]
    simp only []
    rw [goParseInt64_natDecimal a (by omega), goParseInt64_natDecimal b (by omega),
      goParseInt64_natDecimal c (by omega), goParseInt64_natDecimal d (by omega)]
    unfold shl64 add64
    rw [w64_eq_self ((a : Int) * 2 ^ 24) (by positivity) (by norm_num; omega),
      w64_eq_self ((b : Int) * 2 ^ 16) (by positivity) (by norm_num; omega),
      w64_eq_self ((c : Int) * 2 ^ 8) (by positivity) (by norm_num; omega),
      w64_eq_self ((a : Int) * 2 ^ 24 + (b : Int) * 2 ^ 16) (by positivity)
        (by norm_num; omega),
      w64_eq_self ((a : Int) * 2 ^ 24 + (b : Int) * 2 ^ 16 + (c : Int) * 2 ^ 8)
        (by positivity) (by norm_num; omega),
      w64_eq_self ((a : Int) * 2 ^ 24 + (b : Int) * 2 ^ 16 + (c : Int) * 2 ^ 8 + (d : Int))
        (by positivity) (by norm_num; omega)]
    omega
  · intro s hs
    unfold fromIPv4
    have hlen : (splitDot s).length ≠ 4 := by
      rw [splitDot_length]
      omega
    cases h : splitDot s with
    | nil => rfl
    | cons o1 r1 =>
      cases r1 with
      | nil => rfl
      | cons o2 r2 =>
        cases r2 with
        | nil => rfl
        | cons o3 r3 =>
          cases r3 with
          | nil => rfl
          | cons o4 r4 =>
            cases r4 with
            | nil =>
              exfalso
              rw [h] at hlen
              simp at hlen
            | cons o5 r5 => rfl

/-- witness for the inverse law at a concrete address (192.168.1.1) and a
concrete malformed string. -/
theorem fromIPv4_toIPv4_inverse_witness :
    fromIPv4 (toIPv4 (3232235777 : Int)) = 3232235777 ∧ fromIPv4 ['x'] = -1 :=
  ⟨fromIPv4_toIPv4_inverse.1 3232235777 (by norm_num) (by norm_num),
   fromIPv4_toIPv4_inverse.2 ['x'] (by decide)⟩

/-! ## The connection registry (src/lite.go, `registry` / `register` /
`registered`) -/

/-- an opaque native connection handle (`*sqlite3.SQLiteConn`), identified
by a numeric id; the registry holds it as a non-owning reference. -/
abbrev Conn := Nat

/-- the process-wide registry map (src/lite.go `registry`), keyed by
absolute file path; a Go map holds at most one value per key. -/
def Registry := String → Option Conn

/-- the empty registry (`make(map[string]*sqlite3.SQLiteConn)`). -/
def Registry.empty : Registry := fun _ => none

/-- Go map assignment `registry[file] = conn`: insert or overwrite. -/
def Registry.insert (r : Registry) (k : String) (v : Conn) : Registry :=
  fun q => if q = k then some v else r q

/-- `registered` (src/lite.go): read `registry[file]` under the `rmu`
mutex (a missing key yields the zero value, a nil connection). -/
def registered (r : Registry) (file : String) : Option Conn := r file

/-- `register` (src/lite.go): `file, _ = filepath.Abs(file)` canonicalizes
the path, discarding the error (`filepath.Abs` yields `""` exactly when it
fails); the entry is stored under the canonical path when that string is
non-empty.  `absResult` is the string `filepath.Abs` returned for this
call, so the function is deterministic given that outcome. -/
def register (absResult : String) (conn : Conn) (r : Registry) : Registry :=
  if 0 < absResult.length then r.insert absResult conn else r

/-- C5: `register` never fails and stores the handle under the canonical
absolute path; a second registration for the same canonical path overwrites
the first (last-writer-wins) while other keys are untouched, so the map
keeps at most one entry per canonical path. -/
theorem register_last_writer_wins (p : String) (h h' : Conn) (r : Registry)
    (hp : 0 < p.length) :
    registered (register p h r) p = some h ∧
    registered (register p h' (register p h r)) p = some h' ∧
    (∀ q, q ≠ p → registered (register p h r) q = registered r q) := by
  refine ⟨?_, ?_, ?_⟩
  · simp [register, registered, Registry.insert, hp]
  · simp [register, registered, Registry.insert, hp]
  · intro q hq
    simp [register, registered, Registry.insert, hp, hq]

/-- witness: two successive registrations of `/a.db`; the second handle
wins. -/
theorem register_last_writer_wins_witness :
    registered (register "/a.db" 1 Registry.empty) "/a.db" = some 1 ∧
    registered (register "/a.db" 2 (register "/a.db" 1 Registry.empty)) "/a.db" =
      some 2 :=
  ⟨(register_last_writer_wins "/a.db" 1 2 Registry.empty (by decide)).1,
   (register_last_writer_wins "/a.db" 1 2 Registry.empty (by decide)).2.1⟩

/-! ## Driver initialization (src/lite.go, `sqlInit`) -/

/-- `FuncReg` (src/lite.go): a custom function registration request —
name, implementation (an opaque Go value, identified by id), purity flag. -/
structure FuncReg where
  name : String
  impl : Nat
  pure : Bool
deriving DecidableEq, Repr

/-- the configuration a registered logical driver closes over: the startup
query, the user hook (identified by id, `none` for nil) and the custom
function list baked into its connect callback by `sqlInit`. -/
structure DriverConfig where
  query : String
  hook : Option Nat
  funcs : List FuncReg
deriving DecidableEq, Repr

/-- the process-wide driver-initialization state: the `initialized` name
set and the logical drivers registered with `sql.Register`. -/
structure SqlState where
  initialized : List String
  drivers : String → Option DriverConfig

/-- the initial state: nothing initialized, no drivers registered. -/
def SqlState.empty : SqlState :=
  { initialized := [], drivers := fun _ => none }

/-- `sqlInit` (src/lite.go): under the `imu` mutex, return at once if
`driverName` is already in `initialized`; otherwise mark it and register a
logical driver whose connect callback closes over `query`, `hook` and
`funcs` as given to this first call. -/
def sqlInit (driverName query : String) (hook : Option Nat)
    (funcs : List FuncReg) (st : SqlState) : SqlState :=
  if driverName ∈ st.initialized then st
  else
    { initialized := driverName :: st.initialized,
      drivers := fun n =>
        if n = driverName then some ⟨query, hook, funcs⟩ else st.drivers n }

/-- C4: the first `sqlInit` call for a name records that call's
configuration and marks the name initialized; any later call with the same
name — whatever configuration it carries — returns with no effect at all,
so each logical name is initialized exactly once. -/
theorem sqlInit_first_wins (name q1 q2 : String) (h1 h2 : Option Nat)
    (f1 f2 : List FuncReg) (st : SqlState)
    (hnew : ¬ name ∈ st.initialized) :
    (sqlInit name q1 h1 f1 st).drivers name = some ⟨q1, h1, f1⟩ ∧
    name ∈ (sqlInit name q1 h1 f1 st).initialized ∧
    sqlInit name q2 h2 f2 (sqlInit name q1 h1 f1 st) =
      sqlInit name q1 h1 f1 st := by
  refine ⟨?_, ?_, ?_⟩
  · simp [sqlInit, hnew]
  · simp [sqlInit, hnew]
  · set st1 := sqlInit name q1 h1 f1 st with hst1
    have hmem : name ∈ st1.initialized := by
      rw [hst1]
      simp [sqlInit, hnew]
    unfold sqlInit
    rw [if_pos hmem]

/-- witness: initializing `sqlite` twice with different startup queries;
the first configuration survives and the second call is a no-op. -/
theorem sqlInit_first_wins_witness :
    (sqlInit "sqlite" "PRAGMA a" none [] SqlState.empty).drivers "sqlite" =
      some ⟨"PRAGMA a", none, []⟩ ∧
    sqlInit "sqlite" "PRAGMA b" none []
        (sqlInit "sqlite" "PRAGMA a" none [] SqlState.empty) =
      sqlInit "sqlite" "PRAGMA a" none [] SqlState.empty :=
  ⟨(sqlInit_first_wins "sqlite" "PRAGMA a" "PRAGMA b" none none [] []
      SqlState.empty (by simp [SqlState.empty])).1,
   (sqlInit_first_wins "sqlite" "PRAGMA a" "PRAGMA b" none none [] []
      SqlState.empty (by simp [SqlState.empty])).2.2⟩

/-! ## The connect callback (src/lite.go, the `ConnectHook` closure built by
`sqlInit`) -/

/-- errors surfaced by the embedded layer; wrapping constructors mirror the
`fmt.Errorf("...%w", err)` wrappings in src/lite.go. -/
inductive Err where
  | engine (code : Nat)
  | regFuncFailed (name : String) (cause : Err)
  | filenameFailed (conn : Conn) (cause : Err)
  | queryFailed (q : String) (cause : Err)
  | statNotExist (path : String)
  | mkdirFailed (dir : String)
  | osFileFailed (file : String) (cause : Err)
  | sqlOpenFailed (file : String) (cause : Err)
deriving DecidableEq, Repr

/-- outcome oracle for one new physical connection: what the engine and the
OS return for each external call the connect callback makes. -/
structure ConnEnv where
  regFuncErr : FuncReg → Option Err
  filename : Except Err String
  absResult : String → String
  execErr : String → Option Err
  hookErr : Option Err

/-- observable steps of the connect callback, in the order performed. -/
inductive ConnEvent where
  | regFunc (name : String)
  | queryFilename
  | registerPath (path : String)
  | execQuery (q : String)
  | callHook
deriving DecidableEq, Repr

/-- the `for _, fn := range funcs` loop of the connect callback: register
each custom function in order, stopping at the first failure, whose error
is wrapped as `failed to register %q: %w`. -/
def registerFuncs (env : ConnEnv) : List FuncReg → List ConnEvent × Option Err
  | [] => ([], none)
  | fn :: rest =>
    match env.regFuncErr fn with
    | some e => ([ConnEvent.regFunc fn.name], some (Err.regFuncFailed fn.name e))
    | none =>
      let t := registerFuncs env rest
      (ConnEvent.regFunc fn.name :: t.1, t.2)

/-- the `ConnectHook` closure installed by `sqlInit` (src/lite.go): register
the custom functions (fail fast); resolve the connection's backing filename
(`connFilename`), on failure returning a wrapped error naming the
connection; `register` the `(path, conn)` pair; run the startup query when
non-empty; finally invoke the user hook and return its result.  Returns the
connect error (`none` means the connection is established), the registry
after the callback, and the trace of steps performed. -/
def connectHook (query : String) (hook : Option Nat) (funcs : List FuncReg)
    (env : ConnEnv) (conn : Conn) (reg : Registry) :
    Option Err × Registry × List ConnEvent :=
  let t := registerFuncs env funcs
  match t.2 with
  | some e => (some e, reg, t.1)
  | none =>
    match env.filename with
    | Except.error e =>
      (some (Err.filenameFailed conn e), reg, t.1 ++ [ConnEvent.queryFilename])
    | Except.ok path =>
      let reg1 := register (env.absResult path) conn reg
      let tr1 := t.1 ++ [ConnEvent.queryFilename, ConnEvent.registerPath path]
      if query = "" then
        match hook with
        | none => (none, reg1, tr1)
        | some _ => (env.hookErr, reg1, tr1 ++ [ConnEvent.callHook])
      else
        match env.execErr query with
        | some e =>
          (some (Err.queryFailed query e), reg1, tr1 ++ [ConnEvent.execQuery query])
        | none =>
          match hook with
          | none => (none, reg1, tr1 ++ [ConnEvent.execQuery query])
          | some _ =>
            (env.hookErr, reg1, tr1 ++ [ConnEvent.execQuery query, ConnEvent.callHook])

theorem registerFuncs_all_ok (env : ConnEnv) (fns : List FuncReg)
    (h : ∀ f ∈ fns, env.regFuncErr f = none) :
    registerFuncs env fns =
      (fns.map (fun f => ConnEvent.regFunc f.name), none) := by
  induction fns with
  | nil => rfl
  | cons fn rest ih =>
    have hfn : env.regFuncErr fn = none := h fn (by simp)
    have hrest : ∀ f ∈ rest, env.regFuncErr f = none :=
      fun f hf => h f (by simp [hf])
    simp [registerFuncs, hfn, ih hrest]

theorem registerFuncs_first_fail (env : ConnEnv) (pre : List FuncReg)
    (fn : FuncReg) (post : List FuncReg) (e : Err)
    (hpre : ∀ f ∈ pre, env.regFuncErr f = none)
    (hfn : env.regFuncErr fn = some e) :
    registerFuncs env (pre ++ fn :: post) =
      ((pre ++ [fn]).map (fun f => ConnEvent.regFunc f.name),
        some (Err.regFuncFailed fn.name e)) := by
  induction pre with
  | nil => simp [registerFuncs, hfn]
  | cons g rest ih =>
    have hg : env.regFuncErr g = none := hpre g (by simp)
    have hrest : ∀ f ∈ rest, env.regFuncErr f = none :=
      fun f hf => hpre f (by simp [hf])
    simp [registerFuncs, hg, ih hrest]

/-- C3: the connect callback performs its five steps in this order, any
failure aborting connection establishment: (1) each custom function is
registered in order and the first failure is returned at once, wrapped,
with no later registration attempted, nothing put in the registry, no
startup query and no hook; (2) a failing filename resolution yields a
wrapped error naming the connection, with nothing registered; (3) on
success `(path, conn)` is inserted into the registry; (4) a non-empty
startup query then runs, its failure propagating (after the registry
insert); (5) a configured hook is invoked last and its result returned. -/
theorem connectHook_step_order (q : String) (hk : Option Nat)
    (funcs : List FuncReg) (env : ConnEnv) (conn : Conn) (reg : Registry) :
    (∀ pre fn post e, funcs = pre ++ fn :: post →
      (∀ f ∈ pre, env.regFuncErr f = none) → env.regFuncErr fn = some e →
      connectHook q hk funcs env conn reg =
        (some (Err.regFuncFailed fn.name e), reg,
          (pre ++ [fn]).map (fun f => ConnEvent.regFunc f.name))) ∧
    ((∀ f ∈ funcs, env.regFuncErr f = none) →
      (∀ e, env.filename = Except.error e →
        connectHook q hk funcs env conn reg =
          (some (Err.filenameFailed conn e), reg,
            funcs.map (fun f => ConnEvent.regFunc f.name) ++
              [ConnEvent.queryFilename])) ∧
      (∀ path, env.filename = Except.ok path →
        (connectHook q hk funcs env conn reg).2.1 =
            register (env.absResult path) conn reg ∧
        (∀ e, q ≠ "" → env.execErr q = some e →
          connectHook q hk funcs env conn reg =
            (some (Err.queryFailed q e), register (env.absResult path) conn reg,
              funcs.map (fun f => ConnEvent.regFunc f.name) ++
                [ConnEvent.queryFilename, ConnEvent.registerPath path,
                  ConnEvent.execQuery q])) ∧
        (∀ hid, q ≠ "" → env.execErr q = none → hk = some hid →
          connectHook q hk funcs env conn reg =
            (env.hookErr, register (env.absResult path) conn reg,
              funcs.map (fun f => ConnEvent.regFunc f.name) ++
                [ConnEvent.queryFilename, ConnEvent.registerPath path,
                  ConnEvent.execQuery q, ConnEvent.callHook])) ∧
        (q ≠ "" → env.execErr q = none → hk = none →
          connectHook q hk funcs env conn reg =
            (none, register (env.absResult path) conn reg,
              funcs.map (fun f => ConnEvent.regFunc f.name) ++
                [ConnEvent.queryFilename, ConnEvent.registerPath path,
                  ConnEvent.execQuery q])) ∧
        (∀ hid, q = "" → hk = some hid →
          connectHook q hk funcs env conn reg =
            (env.hookErr, register (env.absResult path) conn reg,
              funcs.map (fun f => ConnEvent.regFunc f.name) ++
                [ConnEvent.queryFilename, ConnEvent.registerPath path,
                  ConnEvent.callHook])) ∧
        (q = "" → hk = none →
          connectHook q hk funcs env conn reg =
            (none, register (env.absResult path) conn reg,
              funcs.map (fun f => ConnEvent.regFunc f.name) ++
                [ConnEvent.queryFilename, ConnEvent.registerPath path])))) := by
  constructor
  · intro pre fn post e hsplit hpre hfn
    subst hsplit
    unfold connectHook
    rw [registerFuncs_first_fail env pre fn post e hpre hfn]
  · intro hall
    constructor
    · intro e hfile
      unfold connectHook
      rw [registerFuncs_all_ok env funcs hall, hfile]
    · intro path hfile
      refine ⟨?_, ?_, ?_, ?_, ?_, ?_⟩
      · unfold connectHook
        rw [registerFuncs_all_ok env funcs hall, hfile]
        dsimp only
        by_cases hq : q = ""
        · rw [if_pos hq]
          cases hk <;> rfl
        · rw [if_neg hq]
          cases h : env.execErr q
          · cases hk <;> rfl
          · rfl
      · intro e hq hexec
        unfold connectHook
        rw [registerFuncs_all_ok env funcs hall, hfile]
        dsimp only
        rw [if_neg hq, hexec]
        simp
      · intro hid hq hexec hhk
        unfold connectHook
        rw [registerFuncs_all_ok env funcs hall, hfile]
        dsimp only
        rw [if_neg hq, hexec, hhk]
        simp
      · intro hq hexec hhk
        unfold connectHook
        rw [registerFuncs_all_ok env funcs hall, hfile]
        dsimp only
        rw [if_neg hq, hexec, hhk]
        simp
      · intro hid hq hhk
        unfold connectHook
        rw [registerFuncs_all_ok env funcs hall, hfile]
        dsimp only
        rw [if_pos hq, hhk]
        simp
      · intro hq hhk
        unfold connectHook
        rw [registerFuncs_all_ok env funcs hall, hfile]
        dsimp only
        rw [if_pos hq, hhk]

/-- a per-connection environment in which every external call succeeds. -/
def connEnvOkW : ConnEnv :=
  { regFuncErr := fun _ => none
    filename := Except.ok "/w.db"
    absResult := fun s => s
    execErr := fun _ => none
    hookErr := none }

/-- witness: a full successful establishment with one custom function, a
startup query and a hook, showing the five steps in order. -/
theorem connectHook_step_order_witness :
    connectHook "PRAGMA x" (some 5) [⟨"iptoa", 1, true⟩] connEnvOkW 7
        Registry.empty =
      (none, register "/w.db" 7 Registry.empty,
        [ConnEvent.regFunc "iptoa", ConnEvent.queryFilename,
          ConnEvent.registerPath "/w.db", ConnEvent.execQuery "PRAGMA x",
          ConnEvent.callHook]) := by
  have h := ((connectHook_step_order "PRAGMA x" (some 5) [⟨"iptoa", 1, true⟩]
      connEnvOkW 7 Registry.empty).2 (by intro f hf; rfl)).2 "/w.db" rfl
  have h2 := h.2.2.1 5 (by decide) rfl rfl
  simpa using h2

/-! ## Opening a database (src/lite.go, `open` / `Open`) -/

/-- Go `strings.HasPrefix(s, pre)`, on the underlying character lists. -/
def hasPre (s pre : String) : Bool := pre.data.isPrefixOf s.data

/-- Go `strings.TrimPrefix(s, pre)`: drop `pre` when `s` starts with it. -/
def trimPre (s pre : String) : String :=
  if hasPre s pre then ⟨s.data.drop pre.data.length⟩ else s

/-- the `?query` cut in `open`: Go cuts `filename` at the first `'?'` when
`strings.Index(filename, "?")` is positive (a leading `'?'` is kept). -/
def cutAtQuestion (s : String) : String :=
  match s.toList.indexOf? '?' with
  | some i => if 0 < i then ⟨s.toList.take i⟩ else s
  | none => s

/-- the filename normalization performed by `open`: strip a leading
`file:` scheme, then a leading `//`, then cut the query-string suffix. -/
def normName (file : String) : String :=
  cutAtQuestion (trimPre (trimPre file "file:") "//")

/-- Go `path.Dir` on slash-separated paths: everything before the last
`'/'` (the root stays `"/"`); `"."` when the path has no slash. -/
def dirOf (s : String) : String :=
  let l := s.toList
  match l.reverse.indexOf? '/' with
  | none => "."
  | some k =>
    let keep := l.length - 1 - k
    if keep = 0 then "/" else ⟨l.take keep⟩

/-- Go `strings.Contains`, on the underlying character lists: some suffix
of `s` starts with `sub`. -/
def containsSub : List Char → List Char → Bool
  | [], sub => sub.isEmpty
  | c :: t, sub => sub.isPrefixOf (c :: t) || containsSub t sub

/-- the `strings.Contains(file, ":memory:")` test in `open`. -/
def containsMemory (file : String) : Bool :=
  containsSub file.data ":memory:".data

/-- `Config` (src/lite.go): the options accumulated by `Open`; the zero
value — what `Open` uses when no options are given — has `fail = false`,
empty query, empty driver name, no hook and no functions. -/
structure Config where
  fail : Bool
  query : String
  driver : String
  hook : Option Nat
  funcs : List FuncReg

/-- the zero `Config` built by `Open` via `new(Config)`. -/
def Config.zero : Config :=
  { fail := false, query := "", driver := "", hook := none, funcs := [] }

/-- world state threaded through `open` and `backup`: the set of existing
filesystem paths (files and directories), the connection registry, and the
driver-registration state. -/
structure World where
  fs : List String
  registry : Registry
  sql : SqlState

/-- oracle for one `open` call: the physical connection the pool will
establish on the first ping, the outcome of the `os.OpenFile` create
(`none` = success) and of `sql.Open`, and the environment the connect
callback sees. -/
structure OpenEnv where
  connEnv : ConnEnv
  newConn : Conn
  createErr : Option Err
  sqlOpenErr : Option Err

/-- result of `open`: a usable handle (its physical connection) or an
error. -/
inductive OpenResult where
  | ok (conn : Conn)
  | fail (e : Err)
deriving DecidableEq, Repr

/-- the configuration the first ping's connect callback closes over: what
`sqlInit` left registered for `config.driver` (the configuration of the
FIRST initialization of that name, not necessarily this call's). -/
def pingConfig (config : Config) (st : SqlState) : DriverConfig :=
  ((sqlInit config.driver config.query config.hook config.funcs st).drivers
    config.driver).getD ⟨config.query, config.hook, config.funcs⟩

/-- the tail of `open`: `sql.Open(config.driver, file)` followed by
`db.Ping()`, which establishes the first physical connection and fires the
connect callback of the logical driver registered under `config.driver`. -/
def openConnect (file : String) (config : Config) (env : OpenEnv)
    (w : World) : OpenResult × World :=
  match env.sqlOpenErr with
  | some e => (OpenResult.fail (Err.sqlOpenFailed file e), w)
  | none =>
    let dcfg := (w.sql.drivers config.driver).getD
      ⟨config.query, config.hook, config.funcs⟩
    let r := connectHook dcfg.query dcfg.hook dcfg.funcs env.connEnv
      env.newConn w.registry
    match r.1 with
    | some e => (OpenResult.fail e, { w with registry := r.2.1 })
    | none => (OpenResult.ok env.newConn, { w with registry := r.2.1 })

/-- the file-handling branch of `open` once the directory exists: with
`fail` unset, `os.OpenFile(filename, O_RDWR|O_CREATE, 0666)` creates the
file (its failure is wrapped as `os file: ...`); with `fail` set,
`os.Stat` reports a missing file as an error returned as is. -/
def openAtFile (file filename : String) (config : Config) (env : OpenEnv)
    (w : World) : OpenResult × World :=
  if config.fail = false then
    match env.createErr with
    | some e => (OpenResult.fail (Err.osFileFailed file e), w)
    | none => openConnect file config env { w with fs := filename :: w.fs }
  else
    if filename ∈ w.fs then openConnect file config env w
    else (OpenResult.fail (Err.statNotExist filename), w)

/-- `open` (src/lite.go): run `sqlInit`; for non-memory paths normalize
the filename, `os.Stat` the directory and — single level, `os.Mkdir`, not
`MkdirAll` — create it when missing (failing when its own parent is also
missing), then create or require the file per `config.fail`; finally
`sql.Open` + `Ping`.  Filesystem truth is read from `w.fs`. -/
def openDB (file : String) (config : Config) (env : OpenEnv) (w : World) :
    OpenResult × World :=
  let w1 : World :=
    { w with sql := (sqlInit config.driver config.query config.hook
        config.funcs w.sql) }
  if containsMemory file then
    openConnect file config env w1
  else
    let filename := normName file
    let dirName := dirOf filename
    if dirName ∈ w1.fs then
      openAtFile file filename config env w1
    else if dirOf dirName ∈ w1.fs then
      openAtFile file filename config env { w1 with fs := dirName :: w1.fs }
    else
      (OpenResult.fail (Err.mkdirFailed dirName), w1)

/-! ## Hot backup (src/lite.go, `backup` / `Backup`) -/

/-- outcome of one `bk.Step(step)` call: `(false, nil)` continue,
`(true, nil)` done, or an error. -/
inductive StepRes where
  | more
  | done
  | fail (e : Err)
deriving DecidableEq, Repr

/-- the page-copy loop of `backup`: progress is printed, then
`done, err = bk.Step(step)`; the loop breaks when `done || err != nil`.
Yields the value the local `err` has at the break; an exhausted oracle
list stands for the engine reporting completion. -/
def runLoop : List StepRes → Option Err
  | [] => none
  | StepRes.more :: rest => runLoop rest
  | StepRes.done :: _ => none
  | StepRes.fail e :: _ => some e

/-- the deferred closure of `backup`:
`berr := bk.Finish(); if err != nil { err = berr }`.
It runs only after `return err` has already bound the function's unnamed
result, so whatever it assigns to the local `err` is discarded — and its
condition moreover overwrites a loop error with the finish result instead
of preserving it. -/
def deferredErr (loopErr finishErr : Option Err) : Option Err :=
  match loopErr with
  | some _ => finishErr
  | none => loopErr

/-- oracle for one `backup` call: the environment of the `Open` of the
destination, the second `destDb.Ping()`, the two `Filename` metadata
queries (`""` when the PRAGMA fails, its error being discarded), the
`to.Backup` session start, the step outcomes and the `bk.Finish` result. -/
structure BackupEnv where
  openEnv : OpenEnv
  ping2Err : Option Err
  srcName : String
  destName : String
  initErr : Option Err
  steps : List StepRes
  finishErr : Option Err

/-- observable resource events of one `backup` call. -/
inductive BEvent where
  | removeFile (p : String)
  | openDest (p : String)
  | finishSession
  | closeDest
deriving DecidableEq, Repr

/-- how a `backup` call ends: a normal return (`nil` or an error), or a
runtime panic. -/
inductive BackupResult where
  | ok
  | fail (e : Err)
  | panicked
deriving DecidableEq, Repr

/-- `backup` (src/lite.go).  `os.Remove(dest)` first (error ignored); the
destination is opened through `Open` with no options (the zero `Config`);
`defer destDb.Close()` runs on every later exit, including panic
unwinding.  The source and destination native connections come from the
registry via the `Filename` metadata query; the code performs no nil
check on either lookup, and `(*SQLiteConn).Backup` dereferences both
pointers (`c.db`, `conn.db`), so a missed lookup is a runtime panic.
After a session starts, `defer bk.Finish()` runs on every exit; because
the function's result is unnamed, the deferred closure's write to the
local `err` (see `deferredErr`) cannot change the value already bound by
`return err`, so the function returns exactly the loop's error. -/
def backup (db : Conn) (dest : String) (env : BackupEnv) (w : World) :
    BackupResult × World × List BEvent :=
  let w0 : World := { w with fs := w.fs.erase dest }
  match openDB dest Config.zero env.openEnv w0 with
  | (OpenResult.fail e, w1) =>
    (BackupResult.fail e, w1, [BEvent.removeFile dest, BEvent.openDest dest])
  | (OpenResult.ok _, w1) =>
    match env.ping2Err with
    | some e =>
      (BackupResult.fail e, w1,
        [BEvent.removeFile dest, BEvent.openDest dest, BEvent.closeDest])
    | none =>
      match registered w1.registry env.srcName,
          registered w1.registry env.destName with
      | some _, some _ =>
        match env.initErr with
        | some e =>
          (BackupResult.fail e, w1,
            [BEvent.removeFile dest, BEvent.openDest dest, BEvent.closeDest])
        | none =>
          let res := match runLoop env.steps with
            | some e => BackupResult.fail e
            | none => BackupResult.ok
          (res, w1,
            [BEvent.removeFile dest, BEvent.openDest dest,
              BEvent.finishSession, BEvent.closeDest])
      | _, _ =>
        (BackupResult.panicked, w1,
          [BEvent.removeFile dest, BEvent.openDest dest, BEvent.closeDest])

/-! ### Concrete worlds and oracles for the backup theorems -/

/-- connect environment for the destination connection of a backup to
`/tmp/dest.db`, every external call succeeding. -/
def destConnEnv : ConnEnv :=
  { regFuncErr := fun _ => none
    filename := Except.ok "/tmp/dest.db"
    absResult := fun s => s
    execErr := fun _ => none
    hookErr := none }

/-- open environment whose first ping yields connection 2. -/
def destOpenEnv : OpenEnv :=
  { connEnv := destConnEnv, newConn := 2, createErr := none,
    sqlOpenErr := none }

/-- world with `/tmp` present and the source `/tmp/src.db` registered as
connection 1. -/
def srcWorld : World :=
  { fs := ["/", "/tmp", "/tmp/src.db"]
    registry := Registry.empty.insert "/tmp/src.db" 1
    sql := SqlState.empty }

/-- backup oracle: everything succeeds, the page loop completes on its
first step, and `bk.Finish()` fails with an engine error. -/
def finishFailEnv : BackupEnv :=
  { openEnv := destOpenEnv, ping2Err := none, srcName := "/tmp/src.db",
    destName := "/tmp/dest.db", initErr := none, steps := [StepRes.done],
    finishErr := some (Err.engine 5) }

/-- C1 (code bug): the session is finalized exactly once, but when the
page-copy loop succeeds and `bk.Finish()` fails, `backup` returns `nil`
rather than the finalize error: the deferred closure writes to the local
`err` only after `return err` has bound the unnamed result (and its
condition `err != nil` is inverted besides), so the finalize error is
dropped, contradicting the specified error contract. -/
theorem backup_drops_finalize_error :
    finishFailEnv.finishErr = some (Err.engine 5) ∧
    runLoop finishFailEnv.steps = none ∧
    (backup 1 "/tmp/dest.db" finishFailEnv srcWorld).1 = BackupResult.ok ∧
    ((backup 1 "/tmp/dest.db" finishFailEnv srcWorld).2.2).count
      BEvent.finishSession = 1 := by
  refine ⟨rfl, rfl, ?_, ?_⟩ <;> decide

/-- world in which nothing is registered yet: the source was not opened
through this package. -/
def noSrcWorld : World :=
  { fs := ["/", "/tmp"], registry := Registry.empty, sql := SqlState.empty }

/-- backup oracle for a source path that was never registered (the
destination open itself succeeds and registers the destination). -/
def noSrcEnv : BackupEnv :=
  { openEnv := destOpenEnv, ping2Err := none, srcName := "/tmp/src.db",
    destName := "/tmp/dest.db", initErr := none, steps := [StepRes.done],
    finishErr := none }

/-- C2 counterexample: with no registry entry for the source path,
`backup` does not return an error — the nil native handle reaches
`to.Backup` and the call panics. -/
theorem backup_registry_miss_cex :
    registered noSrcWorld.registry "/tmp/src.db" = none ∧
    (backup 1 "/tmp/dest.db" noSrcEnv noSrcWorld).1 = BackupResult.panicked := by
  constructor <;> decide

/-- C2 (amended): whenever the destination open and its extra ping
succeed but either the source or the destination path has no registry
entry at lookup time, `backup` neither proceeds nor returns an error: the
nil `*SQLiteConn` is dereferenced inside the native `Backup` primitive
and the call panics. -/
theorem backup_registry_miss_panics (db : Conn) (dest : String)
    (env : BackupEnv) (w : World) (c : Conn) (w1 : World)
    (hopen : openDB dest Config.zero env.openEnv
      { w with fs := w.fs.erase dest } = (OpenResult.ok c, w1))
    (hping : env.ping2Err = none)
    (hmiss : registered w1.registry env.srcName = none ∨
      registered w1.registry env.destName = none) :
    (backup db dest env w).1 = BackupResult.panicked := by
  unfold backup
  dsimp only
  rw [hopen]
  dsimp only
  rw [hping]
  rcases hmiss with h | h
  · rw [h]
  · rw [h]
    cases registered w1.registry env.srcName <;> rfl

/-- the world `openDB` produces for the destination open inside the C2
witness run. -/
def noSrcW1 : World :=
  (openDB "/tmp/dest.db" Config.zero noSrcEnv.openEnv
    { noSrcWorld with fs := noSrcWorld.fs.erase "/tmp/dest.db" }).2

/-- witness for the amended C2 statement at the concrete run of
`backup_registry_miss_cex`. -/
theorem backup_registry_miss_panics_witness :
    (backup 1 "/tmp/dest.db" noSrcEnv noSrcWorld).1 = BackupResult.panicked :=
  backup_registry_miss_panics 1 "/tmp/dest.db" noSrcEnv noSrcWorld 2 noSrcW1
    rfl rfl (Or.inl (by decide))

/-- C7: every `backup` run removes the destination file first — the first
resource event is the `os.Remove(dest)`, and it is the only removal in
the whole call — and after the destination open the filesystem and
registry are never touched again, so no failure path cleans up a partial
destination file. -/
theorem backup_removes_dest_first_no_cleanup (db : Conn) (dest : String)
    (env : BackupEnv) (w : World) :
    ((backup db dest env w).2.2).head? = some (BEvent.removeFile dest) ∧
    ((backup db dest env w).2.2).count (BEvent.removeFile dest) = 1 ∧
    (backup db dest env w).2.1 =
      (openDB dest Config.zero env.openEnv { w with fs := w.fs.erase dest }).2 := by
  unfold backup
  dsimp only
  cases hopen : openDB dest Config.zero env.openEnv
      { w with fs := w.fs.erase dest } with
  | mk r w1 =>
    cases r with
    | fail e => simp [List.count_cons]
    | ok c =>
      cases env.ping2Err with
      | some e => simp [List.count_cons]
      | none =>
        rcases hsrc : registered w1.registry env.srcName with _ | f <;>
          rcases hdst : registered w1.registry env.destName with _ | t <;>
          cases env.initErr <;>
          simp [hsrc, hdst, List.count_cons]

/-- connect environment for the destination `/tmp/d/b.db` whose parent
directory is a single missing level under the existing `/tmp`. -/
def parentConnEnv : ConnEnv :=
  { regFuncErr := fun _ => none
    filename := Except.ok "/tmp/d/b.db"
    absResult := fun s => s
    execErr := fun _ => none
    hookErr := none }

/-- open environment for that destination, connection 3. -/
def parentOpenEnv : OpenEnv :=
  { connEnv := parentConnEnv, newConn := 3, createErr := none,
    sqlOpenErr := none }

/-- backup oracle for that destination, everything succeeding. -/
def parentEnv : BackupEnv :=
  { openEnv := parentOpenEnv, ping2Err := none, srcName := "/tmp/src.db",
    destName := "/tmp/d/b.db", initErr := none, steps := [StepRes.done],
    finishErr := none }

/-- C8 counterexample: the parent directory `/tmp/d` of the destination
does not exist, yet `backup` succeeds — `open` creates the single missing
level with `os.Mkdir` since `/tmp` exists — and afterwards the registry
DOES hold an entry for the destination path. -/
theorem backup_missing_parent_cex :
    dirOf (normName "/tmp/d/b.db") = "/tmp/d" ∧
    ¬ "/tmp/d" ∈ srcWorld.fs ∧
    (backup 1 "/tmp/d/b.db" parentEnv srcWorld).1 = BackupResult.ok ∧
    registered (backup 1 "/tmp/d/b.db" parentEnv srcWorld).2.1.registry
      "/tmp/d/b.db" = some 3 := by
  refine ⟨?_, ?_, ?_, ?_⟩ <;> decide

/-- C8 (amended): when the destination's parent directory is missing and
cannot even be created — its own parent is missing too, so the
single-level `os.Mkdir` fails — `backup` fails with the mkdir error
before any connection is made, and the registry is left exactly as it
was, in particular still without an entry for the destination. -/
theorem backup_unreachable_parent_fails (db : Conn) (dest : String)
    (env : BackupEnv) (w : World)
    (hmem : containsMemory dest = false)
    (h1 : ¬ dirOf (normName dest) ∈ w.fs.erase dest)
    (h2 : ¬ dirOf (dirOf (normName dest)) ∈ w.fs.erase dest) :
    (backup db dest env w).1 =
      BackupResult.fail (Err.mkdirFailed (dirOf (normName dest))) ∧
    (backup db dest env w).2.1.registry = w.registry := by
  unfold backup openDB
  dsimp only
  rw [hmem]
  simp only [Bool.false_eq_true, if_false]
  rw [if_neg h1, if_neg h2]
  exact ⟨rfl, rfl⟩

/-- witness for the amended C8 statement: a destination whose parent and
grandparent are both missing. -/
theorem backup_unreachable_parent_fails_witness :
    (backup 1 "/no/such/dir/b.db" parentEnv srcWorld).1 =
      BackupResult.fail
        (Err.mkdirFailed (dirOf (normName "/no/such/dir/b.db"))) ∧
    (backup 1 "/no/such/dir/b.db" parentEnv srcWorld).2.1.registry =
      srcWorld.registry :=
  backup_unreachable_parent_fails 1 "/no/such/dir/b.db" parentEnv srcWorld
    (by decide) (by decide) (by decide)

/-- whether an `open` outcome is an error. -/
def OpenResult.isFail : OpenResult → Bool
  | OpenResult.fail _ => true
  | OpenResult.ok _ => false

/-- C9: opening a non-memory path whose file does not exist on disk: with
the fail-if-missing option set, `open` returns an error (the missing-file
stat error, or the mkdir error when even the directory cannot be made);
with it unset — and absent filesystem, permission or engine failures: the
parent directory exists or only one level of it is missing, the file
create, `sql.Open` and the connect callback all succeed — `open` creates
the file, and the single missing parent level when absent, and returns a
usable handle. -/
theorem open_missing_file (file : String) (config : Config) (env : OpenEnv)
    (w : World) (hmem : containsMemory file = false)
    (hnof : ¬ normName file ∈ w.fs)
    (hnd : normName file ≠ dirOf (normName file)) :
    (config.fail = true →
      ((openDB file config env w).1).isFail = true) ∧
    (config.fail = false → env.createErr = none → env.sqlOpenErr = none →
      (connectHook (pingConfig config w.sql).query
        (pingConfig config w.sql).hook (pingConfig config w.sql).funcs
        env.connEnv env.newConn w.registry).1 = none →
      (dirOf (normName file) ∈ w.fs ∨ dirOf (dirOf (normName file)) ∈ w.fs) →
      (openDB file config env w).1 = OpenResult.ok env.newConn ∧
      normName file ∈ (openDB file config env w).2.fs ∧
      dirOf (normName file) ∈ (openDB file config env w).2.fs) := by
  have hw1fs : ∀ st : SqlState, ({ w with sql := st } : World).fs = w.fs := fun _ => rfl
  constructor
  · intro hfail
    unfold openDB
    dsimp only
    rw [hmem]
    simp only [Bool.false_eq_true, if_false]
    by_cases hd1 : dirOf (normName file) ∈ w.fs
    · rw [if_pos hd1]
      unfold openAtFile
      rw [hfail]
      simp only [Bool.true_eq_false, if_false]
      rw [if_neg hnof]
      rfl
    · rw [if_neg hd1]
      by_cases hd2 : dirOf (dirOf (normName file)) ∈ w.fs
      · rw [if_pos hd2]
        unfold openAtFile
        rw [hfail]
        simp only [Bool.true_eq_false, if_false]
        rw [if_neg (by
          intro hmemx
          rcases List.mem_cons.mp hmemx with h | h
          · exact hnd h
          · exact hnof h)]
        rfl
      · rw [if_neg hd2]
        rfl
  · intro hfail hcreate hsql hhook hdir
    unfold openDB
    dsimp only
    rw [hmem]
    simp only [Bool.false_eq_true, if_false]
    have hconn : ∀ wmid : World, wmid.sql = sqlInit config.driver config.query
          config.hook config.funcs w.sql → wmid.registry = w.registry →
        openConnect file config env wmid =
          (OpenResult.ok env.newConn,
            { wmid with registry :=
              (connectHook (pingConfig config w.sql).query
                (pingConfig config w.sql).hook (pingConfig config w.sql).funcs
                env.connEnv env.newConn w.registry).2.1 }) := by
      intro wmid hsqlst hreg
      unfold openConnect
      rw [hsql]
      dsimp only
      rw [hsqlst, hreg]
      have hdc : ((sqlInit config.driver config.query config.hook config.funcs
          w.sql).drivers config.driver).getD
            ⟨config.query, config.hook, config.funcs⟩ =
          pingConfig config w.sql := rfl
      rw [hdc, hhook]
    by_cases hd1 : dirOf (normName file) ∈ w.fs
    · rw [if_pos hd1]
      unfold openAtFile
      rw [hfail]
      simp only [if_true]
      rw [hcreate]
      dsimp only
      have hc1 := hconn ⟨normName file :: w.fs, w.registry,
        sqlInit config.driver config.query config.hook config.funcs w.sql⟩
        rfl rfl
      rw [hc1]
      refine ⟨rfl, by simp, by simp [hd1]⟩
    · rw [if_neg hd1]
      rcases hdir with hdir | hdir
      · exact absurd hdir hd1
      · rw [if_pos hdir]
        unfold openAtFile
        rw [hfail]
        simp only [if_true]
        rw [hcreate]
        dsimp only
        have hc2 := hconn ⟨normName file :: dirOf (normName file) :: w.fs,
          w.registry,
          sqlInit config.driver config.query config.hook config.funcs w.sql⟩
          rfl rfl
        rw [hc2]
        refine ⟨rfl, by simp, by simp⟩

/-- witness for C9 at `/tmp/missing.db` in the concrete world: with the
fail-if-missing option the open fails; without it the file is created and
the handle (connection 2) returned. -/
theorem open_missing_file_witness :
    ((openDB "/tmp/missing.db" ⟨true, "", "", none, []⟩ destOpenEnv
        srcWorld).1).isFail = true ∧
    ((openDB "/tmp/missing.db" ⟨false, "", "", none, []⟩ destOpenEnv
        srcWorld).1 = OpenResult.ok 2 ∧
      normName "/tmp/missing.db" ∈
        (openDB "/tmp/missing.db" ⟨false, "", "", none, []⟩ destOpenEnv
          srcWorld).2.fs ∧
      dirOf (normName "/tmp/missing.db") ∈
        (openDB "/tmp/missing.db" ⟨false, "", "", none, []⟩ destOpenEnv
          srcWorld).2.fs) :=
  ⟨(open_missing_file "/tmp/missing.db" ⟨true, "", "", none, []⟩ destOpenEnv
      srcWorld (by decide) (by decide) (by decide)).1 rfl,
   (open_missing_file "/tmp/missing.db" ⟨false, "", "", none, []⟩ destOpenEnv
      srcWorld (by decide) (by decide) (by decide)).2 rfl rfl rfl (by decide)
      (Or.inl (by decide))⟩

/-! ## The access broker (src/lite.go, `Server.Exec` / `Server.Stream`) -/

/-- phase of one client task of a `Server`: outside any call; blocked in
`s.mu.Lock()` at the top of `Exec`; inside `Exec`'s body (write lock
held, to be released by its `defer s.mu.Unlock()`); blocked in
`s.mu.RLock()` at the top of `Stream`; inside `Stream`'s body (read lock
held, to be released by its `defer s.mu.RUnlock()`). -/
inductive Phase where
  | idle
  | wantW
  | inW
  | wantR
  | inR
deriving DecidableEq, Repr

/-- the state of the `sync.RWMutex` in a `Server`: whether a writer holds
it and how many readers hold it. -/
structure RWLock where
  writer : Bool
  readers : Nat
deriving DecidableEq, Repr

/-- a broker configuration: the lock plus the phase of every client task. -/
abbrev ServerConf := RWLock × List Phase

/-- one task's transition together with its effect on the lock:
`mu.Lock()` returns only when no writer and no reader holds the lock,
`mu.RLock()` returns only when no writer holds it, and the deferred
unlocks run on every exit path of the call bodies. -/
inductive TaskStep : RWLock → Phase → RWLock → Phase → Prop where
  | callExec (l : RWLock) : TaskStep l Phase.idle l Phase.wantW
  | acquireW (l : RWLock) (hw : l.writer = false) (hr : l.readers = 0) :
      TaskStep l Phase.wantW ⟨true, l.readers⟩ Phase.inW
  | releaseW (l : RWLock) : TaskStep l Phase.inW ⟨false, l.readers⟩ Phase.idle
  | callStream (l : RWLock) : TaskStep l Phase.idle l Phase.wantR
  | acquireR (l : RWLock) (hw : l.writer = false) :
      TaskStep l Phase.wantR ⟨l.writer, l.readers + 1⟩ Phase.inR
  | releaseR (l : RWLock) : TaskStep l Phase.inR ⟨l.writer, l.readers - 1⟩ Phase.idle

/-- interleaving semantics: one task takes a step, the others are
unchanged. -/
inductive ServerStep : ServerConf → ServerConf → Prop where
  | step (l l' : RWLock) (pre post : List Phase) (ph ph' : Phase)
      (t : TaskStep l ph l' ph') :
      ServerStep (l, pre ++ ph :: post) (l', pre ++ ph' :: post)

/-- an initial broker configuration: the lock free, `n` idle tasks. -/
def serverInit (n : Nat) : ServerConf :=
  (⟨false, 0⟩, List.replicate n Phase.idle)

/-- reachability from some initial configuration. -/
def ServerReach (s : ServerConf) : Prop :=
  ∃ n, Relation.ReflTransGen ServerStep (serverInit n) s

/-- the number of tasks currently in phase `ph`. -/
def phCount (ph : Phase) (ts : List Phase) : Nat :=
  ts.countP (fun x => x == ph)

/-- the lock mirrors the task phases: the write-lock flag counts the
tasks inside `Exec`, the reader count counts the tasks inside `Stream`,
and a held write lock excludes all readers. -/
def lockInv (s : ServerConf) : Prop :=
  phCount Phase.inW s.2 = (if s.1.writer then 1 else 0) ∧
  phCount Phase.inR s.2 = s.1.readers ∧
  (s.1.writer = true → s.1.readers = 0)

theorem phCount_split (ph x : Phase) (pre post : List Phase) :
    phCount ph (pre ++ x :: post) =
      phCount ph pre + phCount ph post + (if x = ph then 1 else 0) := by
  unfold phCount
  rw [List.countP_append, List.countP_cons]
  by_cases h : x = ph <;> simp [h]
  omega

theorem lockInv_preserved (s s' : ServerConf) (h : ServerStep s s')
    (hinv : lockInv s) : lockInv s' := by
  cases h with
  | step l l' pre post ph ph' t =>
    unfold lockInv at hinv ⊢
    simp only [phCount_split] at hinv ⊢
    rcases hinv with ⟨h1, h2, h3⟩
    cases t with
    | callExec => exact ⟨by simp_all, by simp_all, h3⟩
    | acquireW hw hr =>
      refine ⟨?_, ?_, fun _ => hr⟩
      · simp_all
      · simp_all
    | releaseW =>
      refine ⟨?_, ?_, by simp⟩ <;>
        cases hlw : l.writer <;> rw [hlw] at h1 <;> simp_all
    | callStream => exact ⟨by simp_all, by simp_all, h3⟩
    | acquireR hw =>
      refine ⟨?_, ?_, ?_⟩
      · simp_all
      · simp_all
      · intro h
        dsimp only at h
        rw [hw] at h
        cases h
    | releaseR =>
      refine ⟨?_, ?_, ?_⟩
      · simp_all
      · simp_all
        omega
      · intro h
        dsimp only at h ⊢
        have := h3 h
        omega

theorem phCount_replicate_idle (ph : Phase) (hph : (Phase.idle == ph) = false)
    (n : Nat) : phCount ph (List.replicate n Phase.idle) = 0 := by
  unfold phCount
  rw [List.countP_eq_zero]
  intro a ha
  rw [List.eq_of_mem_replicate ha]
  simp [hph]

theorem lockInv_reach (s : ServerConf) (hs : ServerReach s) : lockInv s := by
  obtain ⟨n, hr⟩ := hs
  induction hr with
  | refl =>
    unfold lockInv
    refine ⟨?_, ?_, fun h => rfl⟩
    · rw [show (serverInit n).2 = List.replicate n Phase.idle from rfl,
        phCount_replicate_idle _ (by decide) n]
      rfl
    · rw [show (serverInit n).2 = List.replicate n Phase.idle from rfl,
        phCount_replicate_idle _ (by decide) n]
      rfl
  | tail hab hbc ih => exact lockInv_preserved _ _ hbc ih

/-- C6: in every reachable configuration of one `Server`, at most one
task is inside `Exec`, and while one is, no task is inside `Stream` —
`Exec` holds the write lock for the whole call (released on every exit by
its `defer`), fully serializing against all other `Exec` and all `Stream`
calls; and streams are genuinely concurrent: a configuration with two
tasks simultaneously inside `Stream` is reachable. -/
theorem server_exec_mutual_exclusion :
    (∀ s : ServerConf, ServerReach s →
      phCount Phase.inW s.2 ≤ 1 ∧
      (0 < phCount Phase.inW s.2 → phCount Phase.inR s.2 = 0)) ∧
    ServerReach (⟨false, 2⟩, [Phase.inR, Phase.inR]) := by
  constructor
  · intro s hs
    have hinv := lockInv_reach s hs
    rcases hinv with ⟨h1, h2, h3⟩
    constructor
    · rw [h1]
      cases s.1.writer <;> simp
    · intro hpos
      rw [h1] at hpos
      rw [h2]
      cases hlw : s.1.writer
      · rw [hlw] at hpos
        simp at hpos
      · exact h3 hlw
  · refine ⟨2, ?_⟩
    have s1 : ServerStep (serverInit 2)
        (⟨false, 0⟩, [Phase.wantR, Phase.idle]) :=
      ServerStep.step ⟨false, 0⟩ ⟨false, 0⟩ [] [Phase.idle]
        Phase.idle Phase.wantR (TaskStep.callStream ⟨false, 0⟩)
    have s2 : ServerStep (⟨false, 0⟩, [Phase.wantR, Phase.idle])
        (⟨false, 1⟩, [Phase.inR, Phase.idle]) :=
      ServerStep.step ⟨false, 0⟩ ⟨false, 1⟩ [] [Phase.idle]
        Phase.wantR Phase.inR (TaskStep.acquireR ⟨false, 0⟩ rfl)
    have s3 : ServerStep (⟨false, 1⟩, [Phase.inR, Phase.idle])
        (⟨false, 1⟩, [Phase.inR, Phase.wantR]) :=
      ServerStep.step ⟨false, 1⟩ ⟨false, 1⟩ [Phase.inR] []
        Phase.idle Phase.wantR (TaskStep.callStream ⟨false, 1⟩)
    have s4 : ServerStep (⟨false, 1⟩, [Phase.inR, Phase.wantR])
        (⟨false, 2⟩, [Phase.inR, Phase.inR]) :=
      ServerStep.step ⟨false, 1⟩ ⟨false, 2⟩ [Phase.inR] []
        Phase.wantR Phase.inR (TaskStep.acquireR ⟨false, 1⟩ rfl)
    exact Relation.ReflTransGen.tail
      (Relation.ReflTransGen.tail
        (Relation.ReflTransGen.tail
          (Relation.ReflTransGen.tail Relation.ReflTransGen.refl s1) s2) s3) s4

/-- witness: the mutual-exclusion bound applied to the initial one-task
configuration (reachable in zero steps). -/
theorem server_exec_mutual_exclusion_witness :
    phCount Phase.inW (serverInit 1).2 ≤ 1 ∧
    (0 < phCount Phase.inW (serverInit 1).2 →
      phCount Phase.inR (serverInit 1).2 = 0) :=
  server_exec_mutual_exclusion.1 (serverInit 1) ⟨1, Relation.ReflTransGen.refl⟩
